import Mathlib

/-!
Verification of the moteus BLDC controller firmware core against its
specification.  Floating-point code is modelled over the reals; machine
integers are modelled as `Nat` with explicit wrapping where the width
matters.  Each definition is a shallow embedding of the correspondingly
named C++ entity in the repository.
-/

namespace Moteus

/-! ## Torque model (fw/torque_model, `TorqueModel`) -/

/-- Modelled from the spec: `log2f_approx` lives in `fw/math.h`, which is not
among the repository files available; the spec says "`log2` and `2^` use fast
approximations", so it is modelled as the exact base-2 logarithm. -/
noncomputable def log2f_approx (x : ℝ) : ℝ := Real.logb 2 x

/-- Modelled from the spec: `pow2f_approx` lives in `fw/math.h`, which is not
among the repository files available; modelled as the exact power of two. -/
noncomputable def pow2f_approx (x : ℝ) : ℝ := (2 : ℝ) ^ x

/-- Real model of C `copysignf`: the magnitude of the first argument carrying
the sign of the second. -/
noncomputable def copysignf (mag sgn : ℝ) : ℝ := if sgn < 0 then -|mag| else |mag|

/-- The four constructor parameters of `TorqueModel`. -/
structure TorqueModel where
  torque_constant : ℝ
  current_cutoff_A : ℝ
  current_scale : ℝ
  torque_scale : ℝ

/-- Embedding of `TorqueModel::current_to_torque`.  The source hoists
`rotation_extra` above the branch purely to keep the loop timing constant;
it is inlined here, which leaves the value computed unchanged (the hoisted
expression is `0` in the linear branch and is not added there). -/
noncomputable def TorqueModel.current_to_torque (m : TorqueModel) (current : ℝ) : ℝ :=
  if |current| < m.current_cutoff_A then
    current * m.torque_constant
  else
    copysignf
      (m.current_cutoff_A * m.torque_constant +
        m.torque_scale *
          log2f_approx (1 + max 0 (|current| - m.current_cutoff_A) * m.current_scale))
      current

/-- Embedding of `TorqueModel::torque_to_current`, with the source's local
bindings `a`, `rotation_extra` and `cutoff_torque` inlined. -/
noncomputable def TorqueModel.torque_to_current (m : TorqueModel) (torque : ℝ) : ℝ :=
  if |torque| < m.current_cutoff_A * m.torque_constant then
    torque / m.torque_constant
  else
    copysignf
      (m.current_cutoff_A +
        (pow2f_approx ((|torque| - m.current_cutoff_A * m.torque_constant) /
            m.torque_scale) - 1) / m.current_scale)
      torque

/-- For a positive magnitude and a nonzero sign source, `copysignf` is
multiplication by the sign. -/
theorem copysignf_of_pos {E i : ℝ} (hE : 0 < E) (hi : i ≠ 0) :
    copysignf E i = Real.sign i * E := by
  unfold copysignf
  rcases lt_trichotomy i 0 with hlt | heq | hgt
  · rw [if_pos hlt, Real.sign_of_neg hlt, abs_of_pos hE]
    ring
  · exact absurd heq hi
  · rw [if_neg (not_lt.mpr hgt.le), Real.sign_of_pos hgt, abs_of_pos hE]
    ring

/-- With positive model parameters and `current_cutoff_A ≤ |i|`, the
argument of the logarithm is at least one, so the saturated magnitude is
positive. -/
theorem torque_sat_magnitude_pos (m : TorqueModel) {i : ℝ}
    (hkt : 0 < m.torque_constant) (hco : 0 < m.current_cutoff_A)
    (hcs : 0 < m.current_scale) (hts : 0 < m.torque_scale)
    (hge : m.current_cutoff_A ≤ |i|) :
    0 < m.current_cutoff_A * m.torque_constant +
      m.torque_scale *
        Real.logb 2 (1 + (|i| - m.current_cutoff_A) * m.current_scale) := by
  have hlog : 0 ≤ Real.logb 2 (1 + (|i| - m.current_cutoff_A) * m.current_scale) :=
    Real.logb_nonneg one_lt_two (by nlinarith)
  nlinarith

end Moteus

/-- C1: below `current_cutoff_A` the torque is `i * torque_constant`; at or
above the cutoff it is `current_cutoff_A * torque_constant +
torque_scale * log2 (1 + (|i| - current_cutoff_A) * current_scale)` carrying
the sign of `i`; and the sign of the result always equals the sign of `i`
(for positive model parameters). -/
theorem Moteus.torque_model_current_to_torque_formula (m : Moteus.TorqueModel) (i : ℝ)
    (hkt : 0 < m.torque_constant) (hco : 0 < m.current_cutoff_A)
    (hcs : 0 < m.current_scale) (hts : 0 < m.torque_scale) :
    (|i| < m.current_cutoff_A → m.current_to_torque i = i * m.torque_constant) ∧
    (m.current_cutoff_A ≤ |i| →
      m.current_to_torque i =
        Real.sign i *
          (m.current_cutoff_A * m.torque_constant +
            m.torque_scale *
              Real.logb 2 (1 + (|i| - m.current_cutoff_A) * m.current_scale))) ∧
    Real.sign (m.current_to_torque i) = Real.sign i := by
  by_cases h : |i| < m.current_cutoff_A
  · have e : m.current_to_torque i = i * m.torque_constant := by
      unfold Moteus.TorqueModel.current_to_torque
      rw [if_pos h]
    refine ⟨fun _ => e, fun h2 => absurd h (not_lt.mpr h2), ?_⟩
    rw [e]
    rcases lt_trichotomy i 0 with hi | hi | hi
    · rw [Real.sign_of_neg hi, Real.sign_of_neg (mul_neg_of_neg_of_pos hi hkt)]
    · rw [hi, zero_mul]
    · rw [Real.sign_of_pos hi, Real.sign_of_pos (mul_pos hi hkt)]
  · have hge : m.current_cutoff_A ≤ |i| := not_lt.mp h
    have hmax : max 0 (|i| - m.current_cutoff_A) = |i| - m.current_cutoff_A :=
      max_eq_right (by linarith)
    have hne : i ≠ 0 := by
      intro h0
      rw [h0, abs_zero] at hge
      linarith
    have hEpos := Moteus.torque_sat_magnitude_pos m hkt hco hcs hts hge
    have e : m.current_to_torque i =
        Real.sign i *
          (m.current_cutoff_A * m.torque_constant +
            m.torque_scale *
              Real.logb 2 (1 + (|i| - m.current_cutoff_A) * m.current_scale)) := by
      unfold Moteus.TorqueModel.current_to_torque
      rw [if_neg h, hmax, Moteus.log2f_approx]
      exact Moteus.copysignf_of_pos hEpos hne
    refine ⟨fun h1 => absurd h1 h, fun _ => e, ?_⟩
    rw [e]
    rcases lt_trichotomy i 0 with hi | hi | hi
    · rw [Real.sign_of_neg hi]
      rw [Real.sign_of_neg (by nlinarith)]
    · exact absurd hi hne
    · rw [Real.sign_of_pos hi]
      rw [Real.sign_of_pos (by nlinarith)]

/-- Witness for C1 at the concrete model `(Kt, cutoff, cs, ts) = (1, 10, 1, 1)`
and input current `3`. -/
theorem Moteus.torque_model_current_to_torque_formula_witness :
    (|(3 : ℝ)| < (Moteus.TorqueModel.mk 1 10 1 1).current_cutoff_A →
      (Moteus.TorqueModel.mk 1 10 1 1).current_to_torque 3 =
        3 * (Moteus.TorqueModel.mk 1 10 1 1).torque_constant) ∧
    ((Moteus.TorqueModel.mk 1 10 1 1).current_cutoff_A ≤ |(3 : ℝ)| →
      (Moteus.TorqueModel.mk 1 10 1 1).current_to_torque 3 =
        Real.sign 3 *
          ((Moteus.TorqueModel.mk 1 10 1 1).current_cutoff_A *
              (Moteus.TorqueModel.mk 1 10 1 1).torque_constant +
            (Moteus.TorqueModel.mk 1 10 1 1).torque_scale *
              Real.logb 2 (1 + (|(3 : ℝ)| -
                  (Moteus.TorqueModel.mk 1 10 1 1).current_cutoff_A) *
                (Moteus.TorqueModel.mk 1 10 1 1).current_scale))) ∧
    Real.sign ((Moteus.TorqueModel.mk 1 10 1 1).current_to_torque 3) = Real.sign 3 :=
  Moteus.torque_model_current_to_torque_formula (Moteus.TorqueModel.mk 1 10 1 1) 3
    (by norm_num) (by norm_num) (by norm_num) (by norm_num)

open Moteus

/-- The exact torque round-trip: with positive model parameters,
`torque_to_current` inverts `current_to_torque` exactly in the real-valued
model, for every input current. -/
theorem torque_roundtrip_exact (m : TorqueModel)
    (hkt : 0 < m.torque_constant) (hco : 0 < m.current_cutoff_A)
    (hcs : 0 < m.current_scale) (hts : 0 < m.torque_scale) (i : ℝ) :
    m.torque_to_current (m.current_to_torque i) = i := by
  have hts' : m.torque_scale ≠ 0 := ne_of_gt hts
  have hcs' : m.current_scale ≠ 0 := ne_of_gt hcs
  by_cases h : |i| < m.current_cutoff_A
  · have e : m.current_to_torque i = i * m.torque_constant := by
      unfold TorqueModel.current_to_torque
      rw [if_pos h]
    rw [e]
    unfold TorqueModel.torque_to_current
    have hlt : |i * m.torque_constant| < m.current_cutoff_A * m.torque_constant := by
      rw [abs_mul, abs_of_pos hkt]
      exact mul_lt_mul_of_pos_right h hkt
    rw [if_pos hlt]
    exact mul_div_cancel_right₀ i (ne_of_gt hkt)
  · have hge : m.current_cutoff_A ≤ |i| := not_lt.mp h
    have hne : i ≠ 0 := by
      intro h0
      rw [h0, abs_zero] at hge
      linarith
    have hmax : max 0 (|i| - m.current_cutoff_A) = |i| - m.current_cutoff_A :=
      max_eq_right (by linarith)
    have hargpos : (0 : ℝ) < 1 + (|i| - m.current_cutoff_A) * m.current_scale := by
      nlinarith
    have hLnn : 0 ≤ Real.logb 2 (1 + (|i| - m.current_cutoff_A) * m.current_scale) :=
      Real.logb_nonneg one_lt_two (by nlinarith)
    have hEpos := torque_sat_magnitude_pos m hkt hco hcs hts hge
    have e : m.current_to_torque i =
        Real.sign i *
          (m.current_cutoff_A * m.torque_constant +
            m.torque_scale *
              Real.logb 2 (1 + (|i| - m.current_cutoff_A) * m.current_scale)) := by
      unfold TorqueModel.current_to_torque
      rw [if_neg h, hmax, log2f_approx]
      exact copysignf_of_pos hEpos hne
    set E := m.current_cutoff_A * m.torque_constant +
      m.torque_scale * Real.logb 2 (1 + (|i| - m.current_cutoff_A) * m.current_scale)
      with hEdef
    have hstep : (E - m.current_cutoff_A * m.torque_constant) / m.torque_scale =
        Real.logb 2 (1 + (|i| - m.current_cutoff_A) * m.current_scale) := by
      rw [hEdef]
      have harith : m.current_cutoff_A * m.torque_constant +
          m.torque_scale *
            Real.logb 2 (1 + (|i| - m.current_cutoff_A) * m.current_scale) -
          m.current_cutoff_A * m.torque_constant =
          m.torque_scale *
            Real.logb 2 (1 + (|i| - m.current_cutoff_A) * m.current_scale) := by
        ring
      rw [harith, mul_div_cancel_left₀ _ hts']
    have hmag : m.current_cutoff_A +
        (pow2f_approx ((E - m.current_cutoff_A * m.torque_constant) / m.torque_scale)
          - 1) / m.current_scale = |i| := by
      rw [hstep, pow2f_approx,
        Real.rpow_logb (by norm_num) (by norm_num) hargpos]
      have harith : 1 + (|i| - m.current_cutoff_A) * m.current_scale - 1 =
          (|i| - m.current_cutoff_A) * m.current_scale := by
        ring
      rw [harith, mul_div_cancel_right₀ _ hcs']
      ring
    have hnotlt : ¬ E < m.current_cutoff_A * m.torque_constant := by
      rw [hEdef]
      nlinarith
    rw [e]
    rcases lt_trichotomy i 0 with hi | hi | hi
    · rw [Real.sign_of_neg hi, neg_one_mul]
      unfold TorqueModel.torque_to_current
      rw [abs_neg, abs_of_pos hEpos, if_neg hnotlt]
      unfold copysignf
      rw [if_pos (by linarith : -E < 0), hmag, abs_abs, abs_of_neg hi, neg_neg]
    · exact absurd hi hne
    · rw [Real.sign_of_pos hi, one_mul]
      unfold TorqueModel.torque_to_current
      rw [abs_of_pos hEpos, if_neg hnotlt]
      unfold copysignf
      rw [if_neg (not_lt.mpr hEpos.le), hmag, abs_abs, abs_of_pos hi]

/-- C2: for positive model parameters and `|i| ≤ 2 * current_cutoff_A`, the
round trip `torque_to_current (current_to_torque i)` agrees with `i` to
within 0.5% (in the real-valued model the round trip is in fact exact). -/
theorem torque_model_roundtrip_within_half_percent (m : TorqueModel) (i : ℝ)
    (hkt : 0 < m.torque_constant) (hco : 0 < m.current_cutoff_A)
    (hcs : 0 < m.current_scale) (hts : 0 < m.torque_scale)
    (hrange : |i| ≤ 2 * m.current_cutoff_A) :
    |m.torque_to_current (m.current_to_torque i) - i| ≤ 0.005 * |i| := by
  rw [torque_roundtrip_exact m hkt hco hcs hts i, sub_self, abs_zero]
  positivity

/-- Witness for C2 at the concrete model `(Kt, cutoff, cs, ts) = (1, 10, 1, 1)`
and input current `12` (which is in the saturated regime and below twice the
cutoff). -/
theorem torque_model_roundtrip_witness :
    |(TorqueModel.mk 1 10 1 1).torque_to_current
        ((TorqueModel.mk 1 10 1 1).current_to_torque 12) - 12| ≤ 0.005 * |(12 : ℝ)| :=
  torque_model_roundtrip_within_half_percent (TorqueModel.mk 1 10 1 1) 12
    (by norm_num) (by norm_num) (by norm_num) (by norm_num) (by norm_num)

/-! ## FOC transforms (fw/foc.h) -/

/-- The cached sine and cosine pair of `fw/foc.h` (`struct SinCos`). -/
structure Moteus.SinCos where
  s : ℝ
  c : ℝ

/-- Embedding of `Cordic::radians`: the sine/cosine pair of an angle in
radians (the source computes `std::sin`/`std::cos` of the angle after a Q31
conversion). -/
noncomputable def Moteus.Cordic.radians (theta : ℝ) : SinCos :=
  SinCos.mk (Real.sin theta) (Real.cos theta)

/-- Modelled from the spec: `kSqrt3` comes from `fw/math.h`, which is not
among the repository files available; the spec gives the Clarke transform as
`((2a−b−c)/3, (b−c)/√3)`, so `kSqrt3` is `√3`. -/
noncomputable def Moteus.kSqrt3 : ℝ := Real.sqrt 3

/-- Embedding of `struct ClarkTransform`: `(x, y)` from phase values. -/
noncomputable def Moteus.ClarkTransform (a b c : ℝ) : ℝ × ℝ :=
  ((2 * a - b - c) * (1 / 3), (b - c) * (1 / kSqrt3))

/-- Embedding of `struct InverseClarkTransform`: `(a, b, c)` from `(x, y)`. -/
noncomputable def Moteus.InverseClarkTransform (x y : ℝ) : ℝ × ℝ × ℝ :=
  (x, (-x + kSqrt3 * y) / 2, (-x - kSqrt3 * y) / 2)

/-- Embedding of `struct ParkTransform`: `(d, q)` from `(x, y)` and a
sine/cosine pair. -/
noncomputable def Moteus.ParkTransform (sc : SinCos) (x y : ℝ) : ℝ × ℝ :=
  (sc.c * x + sc.s * y, sc.c * y - sc.s * x)

/-- Embedding of `struct InverseParkTransform`: `(x, y)` from `(d, q)` and a
sine/cosine pair. -/
noncomputable def Moteus.InverseParkTransform (sc : SinCos) (d q : ℝ) : ℝ × ℝ :=
  (sc.c * d - sc.s * q, sc.c * q + sc.s * d)

/-- C6: Clarke after inverse Clarke returns `(x, y)`, and Park after inverse
Park with the same `SinCos` of an angle returns `(d, q)`, within `1e-5`
(exactly, in the real-valued model). -/
theorem clark_park_inverse_roundtrips (x y theta d q : ℝ) :
    |(ClarkTransform (InverseClarkTransform x y).1 (InverseClarkTransform x y).2.1
        (InverseClarkTransform x y).2.2).1 - x| ≤ 1e-5 ∧
    |(ClarkTransform (InverseClarkTransform x y).1 (InverseClarkTransform x y).2.1
        (InverseClarkTransform x y).2.2).2 - y| ≤ 1e-5 ∧
    |(ParkTransform (Cordic.radians theta)
        (InverseParkTransform (Cordic.radians theta) d q).1
        (InverseParkTransform (Cordic.radians theta) d q).2).1 - d| ≤ 1e-5 ∧
    |(ParkTransform (Cordic.radians theta)
        (InverseParkTransform (Cordic.radians theta) d q).1
        (InverseParkTransform (Cordic.radians theta) d q).2).2 - q| ≤ 1e-5 := by
  have h3 : kSqrt3 ≠ 0 := by
    have : (0 : ℝ) < Real.sqrt 3 := Real.sqrt_pos.mpr (by norm_num)
    unfold kSqrt3
    exact ne_of_gt this
  have hsc : Real.sin theta ^ 2 + Real.cos theta ^ 2 = 1 := Real.sin_sq_add_cos_sq theta
  have e1 : (ClarkTransform (InverseClarkTransform x y).1 (InverseClarkTransform x y).2.1
      (InverseClarkTransform x y).2.2).1 = x := by
    simp only [ClarkTransform, InverseClarkTransform]
    ring
  have e2 : (ClarkTransform (InverseClarkTransform x y).1 (InverseClarkTransform x y).2.1
      (InverseClarkTransform x y).2.2).2 = y := by
    simp only [ClarkTransform, InverseClarkTransform]
    field_simp
  have e3 : (ParkTransform (Cordic.radians theta)
      (InverseParkTransform (Cordic.radians theta) d q).1
      (InverseParkTransform (Cordic.radians theta) d q).2).1 = d := by
    simp only [ParkTransform, InverseParkTransform, Cordic.radians]
    linear_combination d * hsc
  have e4 : (ParkTransform (Cordic.radians theta)
      (InverseParkTransform (Cordic.radians theta) d q).1
      (InverseParkTransform (Cordic.radians theta) d q).2).2 = q := by
    simp only [ParkTransform, InverseParkTransform, Cordic.radians]
    linear_combination q * hsc
  rw [e1, e2, e3, e4]
  norm_num

/-! ## UART encoder sources (fw/aksim2.h `Aksim2`, fw/clock_manager.h `CuiAmt21`) -/

/-- The fields of `aux::UartEncoder::Status` that the UART encoder drivers
touch (part_010). -/
structure Moteus.UartStatus where
  active : Bool := false
  value : Nat := 0
  nonce : Nat := 0
  aksim2_err : Bool := false
  aksim2_warn : Bool := false
  aksim2_status : Nat := 0
  checksum_errors : Nat := 0
deriving DecidableEq, Repr

/-- The DMA UART read state the encoder drivers observe: how many bytes of
the issued read remain outstanding (`read_bytes_remaining`), and the driver
receive buffer `buffer_` whose cells are `uint8` (accessed through `byte`). -/
structure Moteus.UartRead where
  read_bytes_remaining : Nat
  buffer : Nat → Nat

/-- Reading cell `i` of the `uint8` buffer. -/
def Moteus.UartRead.byte (u : UartRead) (i : Nat) : Nat := u.buffer i % 256

/-- `Aksim2::kResyncBytes`. -/
def Moteus.Aksim2.kResyncBytes : Nat := 3

/-- `CuiAmt21::kResyncBytes`. -/
def Moteus.CuiAmt21.kResyncBytes : Nat := 3

/-- Embedding of `Aksim2::ProcessQuery`.  The returned pair is the updated
`*status` and the updated `query_outstanding_` flag; finishing the DMA read
is a hardware effect with no bearing on these.  The byte 100 is the marker
character d. -/
def Moteus.Aksim2.ProcessQuery (u : UartRead) (query_outstanding : Bool)
    (status : UartStatus) : UartStatus × Bool :=
  if u.read_bytes_remaining > Aksim2.kResyncBytes then (status, query_outstanding)
  else if u.read_bytes_remaining = 0 then (status, false)
  else if u.byte 0 ≠ 100 then (status, query_outstanding)
  else
    ({ status with
        value := ((u.byte 1 <<< 16) ||| (u.byte 2 <<< 8) ||| u.byte 3) >>> 2,
        aksim2_err := (u.byte 3 &&& 0x01) != 0,
        aksim2_warn := (u.byte 3 &&& 0x02) != 0,
        aksim2_status := (u.byte 4 <<< 8) ||| u.byte 5,
        nonce := (status.nonce + 1) % 256,
        active := true },
      false)

/-- The `even_parity` helper inside `CuiAmt21::ProcessQuery`: 1 xor-ed with
bits 0, 2, 4, 6, 8, 10, 12 of the word, as a boolean. -/
def Moteus.cuiEvenParity (value : Nat) : Bool :=
  (1 ^^^ (value &&& 0x01) ^^^ ((value >>> 2) &&& 0x01) ^^^ ((value >>> 4) &&& 0x01) ^^^
    ((value >>> 6) &&& 0x01) ^^^ ((value >>> 8) &&& 0x01) ^^^ ((value >>> 10) &&& 0x01) ^^^
    ((value >>> 12) &&& 0x01)) != 0

/-- The `odd_parity` helper inside `CuiAmt21::ProcessQuery`. -/
def Moteus.cuiOddParity (value : Nat) : Bool := cuiEvenParity (value >>> 1)

/-- Embedding of `CuiAmt21::ProcessQuery`.  `cui_amt21_address` is the
configured `uint8` bus address echoed back as the first byte. -/
def Moteus.CuiAmt21.ProcessQuery (cui_amt21_address : Nat) (u : UartRead)
    (query_outstanding : Bool) (status : UartStatus) : UartStatus × Bool :=
  if u.read_bytes_remaining > CuiAmt21.kResyncBytes then (status, query_outstanding)
  else if u.read_bytes_remaining = 0 then (status, false)
  else if u.byte 0 ≠ cui_amt21_address % 256 then (status, query_outstanding)
  else
    let value := u.byte 1 ||| (u.byte 2 <<< 8)
    let measured_even_parity := cuiEvenParity value
    let measured_odd_parity := cuiOddParity value
    let received_odd_parity := (value &&& 0x8000) != 0
    let received_even_parity := (value &&& 0x4000) != 0
    if received_odd_parity ≠ measured_odd_parity ∨
        received_even_parity ≠ measured_even_parity then
      ({ status with checksum_errors := (status.checksum_errors + 1) % 65536 }, false)
    else
      ({ status with
          value := value &&& 0x3fff,
          nonce := (status.nonce + 1) % 256,
          active := true },
        false)

/-- Buffer bytes are below 256. -/
theorem Moteus.UartRead.byte_lt (u : UartRead) (i : Nat) : u.byte i < 256 :=
  Nat.mod_lt _ (by norm_num)

/-- A byte or-ed below a shifted value is addition, for the low-byte-first
16-bit assembly `lo | (hi << 8)`. -/
theorem lor_shiftLeft8_eq (lo hi : Nat) (hlo : lo < 256) :
    lo ||| (hi <<< 8) = hi * 256 + lo := by
  have h8 : hi <<< 8 = 2 ^ 8 * hi := by
    rw [Nat.shiftLeft_eq]
    ring
  rw [Nat.lor_comm, h8, ← Nat.mul_add_lt_is_or (show lo < 2 ^ 8 by omega) hi]
  omega

/-- The high-byte-first 16-bit assembly `(hi << 8) | lo` is addition. -/
theorem shiftLeft8_lor_eq (hi lo : Nat) (hlo : lo < 256) :
    (hi <<< 8) ||| lo = hi * 256 + lo := by
  have h8 : hi <<< 8 = 2 ^ 8 * hi := by
    rw [Nat.shiftLeft_eq]
    ring
  rw [h8, ← Nat.mul_add_lt_is_or (show lo < 2 ^ 8 by omega) hi]
  omega

/-- The 24-bit big-endian byte assembly is addition. -/
theorem word24_or_eq (a b c : Nat) (hb : b < 256) (hc : c < 256) :
    (a <<< 16) ||| (b <<< 8) ||| c = a * 65536 + b * 256 + c := by
  rw [Nat.lor_assoc]
  have inner : (b <<< 8) ||| c = b * 256 + c := shiftLeft8_lor_eq b c hc
  have h16 : a <<< 16 = 2 ^ 16 * a := by
    rw [Nat.shiftLeft_eq]
    ring
  rw [inner, h16, ← Nat.mul_add_lt_is_or (show b * 256 + c < 2 ^ 16 by omega) a]
  omega

/-- Testing a masked power of two against zero is `testBit`. -/
theorem and_two_pow_ne_zero_eq_testBit (v i : Nat) :
    ((v &&& 2 ^ i) != 0) = v.testBit i := by
  rw [Nat.and_two_pow]
  cases h : v.testBit i <;> simp [h, Nat.pos_iff_ne_zero, Nat.two_pow_pos i]

/-- C4: `Aksim2::ProcessQuery` commits a sample only when the first buffered
byte is the marker d (100); on acceptance it stores the 24-bit position of
the three following bytes (shifted past the two status bits), the two status
bits, the 16-bit status word, increments the nonce modulo 256 and sets
`active`; a reply whose first byte is not the marker changes nothing, and
once the 3 (`kResyncBytes`) extra bytes are consumed without a marker the
query is abandoned (`query_outstanding` cleared) so it can be retried. -/
theorem aksim2_process_query_spec (u : UartRead) (st : UartStatus) (qo : Bool) :
    Aksim2.kResyncBytes = 3 ∧
    (Aksim2.kResyncBytes < u.read_bytes_remaining →
      Aksim2.ProcessQuery u qo st = (st, qo)) ∧
    (u.read_bytes_remaining = 0 → Aksim2.ProcessQuery u qo st = (st, false)) ∧
    (0 < u.read_bytes_remaining → u.read_bytes_remaining ≤ Aksim2.kResyncBytes →
      u.byte 0 ≠ 100 → Aksim2.ProcessQuery u qo st = (st, qo)) ∧
    (0 < u.read_bytes_remaining → u.read_bytes_remaining ≤ Aksim2.kResyncBytes →
      u.byte 0 = 100 →
      Aksim2.ProcessQuery u qo st =
        ({ st with
            value := (u.byte 1 * 65536 + u.byte 2 * 256 + u.byte 3) / 4,
            aksim2_err := (u.byte 3).testBit 0,
            aksim2_warn := (u.byte 3).testBit 1,
            aksim2_status := u.byte 4 * 256 + u.byte 5,
            nonce := (st.nonce + 1) % 256,
            active := true }, false)) := by
  refine ⟨rfl, ?_, ?_, ?_, ?_⟩
  · intro h
    unfold Aksim2.ProcessQuery
    rw [if_pos h]
  · intro h
    unfold Aksim2.ProcessQuery
    rw [if_neg (by rw [h]; decide), if_pos h]
  · intro h0 h3 hb
    unfold Aksim2.ProcessQuery
    rw [if_neg (not_lt.mpr h3), if_neg (Nat.pos_iff_ne_zero.mp h0), if_pos hb]
  · intro h0 h3 hb
    have hv : ((u.byte 1 <<< 16) ||| (u.byte 2 <<< 8) ||| u.byte 3) >>> 2 =
        (u.byte 1 * 65536 + u.byte 2 * 256 + u.byte 3) / 4 := by
      rw [word24_or_eq _ _ _ (u.byte_lt 2) (u.byte_lt 3), Nat.shiftRight_eq_div_pow]
    have herr : ((u.byte 3 &&& 0x01) != 0) = (u.byte 3).testBit 0 := by
      rw [show (0x01 : Nat) = 2 ^ 0 by norm_num]
      exact and_two_pow_ne_zero_eq_testBit (u.byte 3) 0
    have hwarn : ((u.byte 3 &&& 0x02) != 0) = (u.byte 3).testBit 1 := by
      rw [show (0x02 : Nat) = 2 ^ 1 by norm_num]
      exact and_two_pow_ne_zero_eq_testBit (u.byte 3) 1
    have hstat : (u.byte 4 <<< 8) ||| u.byte 5 = u.byte 4 * 256 + u.byte 5 :=
      shiftLeft8_lor_eq _ _ (u.byte_lt 5)
    unfold Aksim2.ProcessQuery
    rw [if_neg (not_lt.mpr h3), if_neg (Nat.pos_iff_ne_zero.mp h0),
      if_neg (by rw [hb]; exact fun h => h rfl), hv, herr, hwarn, hstat]

/-- C3: `CuiAmt21::ProcessQuery`, on a reply whose echoed address byte
matches, checks the two received parity bits (bits 15 and 14 of the
assembled 16-bit word) against the parities computed over the data bits; a
mismatch increments `checksum_errors` (mod 2^16) and leaves `value`, `nonce`
and `active` untouched, while a match stores the low 14 bits into `value`,
increments the nonce modulo 256 and sets `active`. -/
theorem cui_amt21_parity_check (cui_amt21_address : Nat) (u : UartRead)
    (st : UartStatus) (qo : Bool) :
    (0 < u.read_bytes_remaining → u.read_bytes_remaining ≤ CuiAmt21.kResyncBytes →
      u.byte 0 = cui_amt21_address % 256 →
      ((u.byte 1 ||| (u.byte 2 <<< 8)).testBit 15 ≠
          cuiOddParity (u.byte 1 ||| (u.byte 2 <<< 8)) ∨
        (u.byte 1 ||| (u.byte 2 <<< 8)).testBit 14 ≠
          cuiEvenParity (u.byte 1 ||| (u.byte 2 <<< 8))) →
      CuiAmt21.ProcessQuery cui_amt21_address u qo st =
        ({ st with checksum_errors := (st.checksum_errors + 1) % 65536 }, false)) ∧
    (0 < u.read_bytes_remaining → u.read_bytes_remaining ≤ CuiAmt21.kResyncBytes →
      u.byte 0 = cui_amt21_address % 256 →
      (u.byte 1 ||| (u.byte 2 <<< 8)).testBit 15 =
        cuiOddParity (u.byte 1 ||| (u.byte 2 <<< 8)) →
      (u.byte 1 ||| (u.byte 2 <<< 8)).testBit 14 =
        cuiEvenParity (u.byte 1 ||| (u.byte 2 <<< 8)) →
      CuiAmt21.ProcessQuery cui_amt21_address u qo st =
        ({ st with
            value := (u.byte 1 ||| (u.byte 2 <<< 8)) % 16384,
            nonce := (st.nonce + 1) % 256,
            active := true }, false)) := by
  have h15 : (((u.byte 1 ||| (u.byte 2 <<< 8)) &&& 0x8000) != 0) =
      (u.byte 1 ||| (u.byte 2 <<< 8)).testBit 15 := by
    rw [show (0x8000 : Nat) = 2 ^ 15 by norm_num]
    exact and_two_pow_ne_zero_eq_testBit (u.byte 1 ||| (u.byte 2 <<< 8)) 15
  have h14 : (((u.byte 1 ||| (u.byte 2 <<< 8)) &&& 0x4000) != 0) =
      (u.byte 1 ||| (u.byte 2 <<< 8)).testBit 14 := by
    rw [show (0x4000 : Nat) = 2 ^ 14 by norm_num]
    exact and_two_pow_ne_zero_eq_testBit (u.byte 1 ||| (u.byte 2 <<< 8)) 14
  have hmask : ((u.byte 1 ||| (u.byte 2 <<< 8)) &&& 0x3fff) =
      (u.byte 1 ||| (u.byte 2 <<< 8)) % 16384 := by
    rw [show (0x3fff : Nat) = 2 ^ 14 - 1 by norm_num, show (16384 : Nat) = 2 ^ 14 by norm_num]
    exact Nat.and_pow_two_sub_one_eq_mod (u.byte 1 ||| (u.byte 2 <<< 8)) 14
  constructor
  · intro h0 h3 hb hmis
    unfold CuiAmt21.ProcessQuery
    rw [if_neg (not_lt.mpr h3), if_neg (Nat.pos_iff_ne_zero.mp h0),
      if_neg (by rw [hb]; exact fun h => h rfl)]
    simp only [h15, h14]
    rw [if_pos hmis]
  · intro h0 h3 hb hodd heven
    unfold CuiAmt21.ProcessQuery
    rw [if_neg (not_lt.mpr h3), if_neg (Nat.pos_iff_ne_zero.mp h0),
      if_neg (by rw [hb]; exact fun h => h rfl)]
    simp only [h15, h14]
    rw [if_neg (by
        push_neg
        exact ⟨hodd, heven⟩), hmask]



/-- The poll bookkeeping both UART encoder drivers keep:
`query_outstanding_` and `last_query_start_us_` (a `uint32`
microsecond timestamp). -/
structure Moteus.UartPoll where
  query_outstanding : Bool
  last_query_start_us : Nat
deriving DecidableEq, Repr

/-- The `uint32` difference `now_us - last_query_start_us_` as the source
computes it (wrapping subtraction modulo 2^32). -/
def Moteus.u32delta (now prev : Nat) : Nat := (now + 4294967296 - prev) % 4294967296

/-- Embedding of `Aksim2::ISR_Update`: abort an outstanding query after more
than twice the poll period, otherwise try to finish it with `ProcessQuery`;
then, when no query is outstanding and a full poll period has elapsed, issue
a new query (write the marker and start a DMA read).  The pair is the
updated poll bookkeeping and the updated `*status`. -/
def Moteus.Aksim2.ISR_Update (poll_rate_us : Nat) (u : UartRead) (s : UartPoll)
    (status : UartStatus) (now_us : Nat) : UartPoll × UartStatus :=
  let delta_us := u32delta now_us s.last_query_start_us
  let step1 : UartStatus × Bool :=
    if s.query_outstanding then
      if delta_us > 2 * poll_rate_us then (status, false)
      else Aksim2.ProcessQuery u s.query_outstanding status
    else (status, s.query_outstanding)
  if step1.2 then ({ s with query_outstanding := true }, step1.1)
  else if delta_us < poll_rate_us then ({ s with query_outstanding := false }, step1.1)
  else (UartPoll.mk true now_us, step1.1)

/-- Embedding of `CuiAmt21::ISR_Update`, identical in structure to
`Aksim2::ISR_Update` but retiring replies with the CUI parity check. -/
def Moteus.CuiAmt21.ISR_Update (cui_amt21_address poll_rate_us : Nat) (u : UartRead)
    (s : UartPoll) (status : UartStatus) (now_us : Nat) : UartPoll × UartStatus :=
  let delta_us := u32delta now_us s.last_query_start_us
  let step1 : UartStatus × Bool :=
    if s.query_outstanding then
      if delta_us > 2 * poll_rate_us then (status, false)
      else CuiAmt21.ProcessQuery cui_amt21_address u s.query_outstanding status
    else (status, s.query_outstanding)
  if step1.2 then ({ s with query_outstanding := true }, step1.1)
  else if delta_us < poll_rate_us then ({ s with query_outstanding := false }, step1.1)
  else (UartPoll.mk true now_us, step1.1)

/-- C8 counterexample: at a concrete timed-out query (poll period 1000 us,
query issued at 0, now 3000 us, no bytes received) both `Aksim2::ISR_Update`
and `CuiAmt21::ISR_Update` abort the query but leave `active` set: the
status is not marked inactive on timeout. -/
theorem uart_timeout_retains_active_cex :
    (Aksim2.ISR_Update 1000 (UartRead.mk 9 (fun _ => 0)) (UartPoll.mk true 0)
        { active := true, value := 5, nonce := 7 } 3000).2.active = true ∧
    (CuiAmt21.ISR_Update 0x54 1000 (UartRead.mk 9 (fun _ => 0)) (UartPoll.mk true 0)
        { active := true, value := 5, nonce := 7 } 3000).2.active = true := by
  constructor <;> rfl

/-- C8 (amended): in both `Aksim2::ISR_Update` and `CuiAmt21::ISR_Update`,
an outstanding query that has not completed after more than
`2 * poll_rate_us` microseconds is aborted — the DMA read is finished, the
query ceases to be outstanding, and (a poll period having elapsed) a fresh
query is immediately issued with `last_query_start_us = now` — while the
status, in particular its `active` flag, is left completely unchanged by the
timeout path. -/
theorem uart_timeout_aborts_query_keeps_status (cui_amt21_address poll_rate_us : Nat)
    (u : UartRead) (s : UartPoll) (st : UartStatus) (now_us : Nat)
    (hqo : s.query_outstanding = true)
    (hprev : s.last_query_start_us ≤ now_us) (hnow : now_us < 4294967296)
    (htime : 2 * poll_rate_us < now_us - s.last_query_start_us) :
    Aksim2.ISR_Update poll_rate_us u s st now_us = (UartPoll.mk true now_us, st) ∧
    CuiAmt21.ISR_Update cui_amt21_address poll_rate_us u s st now_us =
      (UartPoll.mk true now_us, st) := by
  have hdelta : u32delta now_us s.last_query_start_us =
      now_us - s.last_query_start_us := by
    unfold u32delta
    omega
  have hlt : ¬ (now_us - s.last_query_start_us < poll_rate_us) := by omega
  constructor
  · simp [Aksim2.ISR_Update, hdelta, hqo, htime, hlt]
  · simp [CuiAmt21.ISR_Update, hdelta, hqo, htime, hlt]

/-- Witness for the amended C8 at the concrete timed-out query of the
counterexample. -/
theorem uart_timeout_aborts_witness :
    Aksim2.ISR_Update 1000 (UartRead.mk 9 (fun _ => 0)) (UartPoll.mk true 0)
        { active := true, value := 5, nonce := 7 } 3000 =
      (UartPoll.mk true 3000, { active := true, value := 5, nonce := 7 }) ∧
    CuiAmt21.ISR_Update 0x54 1000 (UartRead.mk 9 (fun _ => 0)) (UartPoll.mk true 0)
        { active := true, value := 5, nonce := 7 } 3000 =
      (UartPoll.mk true 3000, { active := true, value := 5, nonce := 7 }) :=
  uart_timeout_aborts_query_keeps_status 0x54 1000 (UartRead.mk 9 (fun _ => 0))
    (UartPoll.mk true 0) { active := true, value := 5, nonce := 7 } 3000
    rfl (by norm_num) (by norm_num) (by norm_num)

/-! ## Index source (part_006 `Stm32Index`) -/

/-- The `aux::AuxError` values relevant to `Stm32Index`. -/
inductive Moteus.AuxError where
  | kNone
  | kIndexPinError
deriving DecidableEq, Repr

/-- The fields of `aux::Index::Status` (part_010). -/
structure Moteus.IndexStatus where
  active : Bool := false
  raw : Bool := false
  value : Bool := false
deriving DecidableEq, Repr

/-- The driver state of `Stm32Index`: the construction error and the
EXTI-latched `observed_` flag. -/
structure Moteus.Stm32IndexState where
  error : AuxError
  observed : Bool
deriving DecidableEq, Repr

/-- Embedding of `Stm32Index::ISR_Callback` at a pin read: a high reading
latches `observed_`. -/
def Moteus.Stm32Index.ISR_Callback (s : Stm32IndexState) (pin_read : Bool) :
    Stm32IndexState :=
  if pin_read then { s with observed := true } else s

/-- Embedding of `Stm32Index::ISR_Update` at a live pin read: consume the
latch (`observed_.exchange(false)`), or it with the live read into `raw`,
and report a rising edge in `value`. -/
def Moteus.Stm32Index.ISR_Update (s : Stm32IndexState) (status : IndexStatus)
    (live_read : Bool) : Stm32IndexState × IndexStatus :=
  if s.error ≠ AuxError.kNone then (s, status)
  else
    let old_raw := status.raw
    let observed := s.observed
    let raw := observed || live_read
    ({ s with observed := false },
      { active := true, raw := raw, value := raw && !old_raw })

/-- C7: with no construction error, `Stm32Index::ISR_Update` sets `raw` to
the or of the consumed EXTI latch and the live read, sets `value` exactly on
a false-to-true transition of `raw`, marks the source active and clears the
latch; consequently a pulse latched by the interrupt between two updates is
reported by the next update even when the live read is low. -/
theorem stm32_index_isr_update_latch (s : Stm32IndexState) (st : IndexStatus)
    (live : Bool) (h : s.error = AuxError.kNone) :
    (Stm32Index.ISR_Update s st live).2.raw = (s.observed || live) ∧
    (Stm32Index.ISR_Update s st live).2.value = ((s.observed || live) && !st.raw) ∧
    (Stm32Index.ISR_Update s st live).2.active = true ∧
    (Stm32Index.ISR_Update s st live).1.observed = false ∧
    (Stm32Index.ISR_Update
        (Stm32Index.ISR_Callback (Stm32Index.ISR_Update s st live).1 true)
        (Stm32Index.ISR_Update s st live).2 false).2.raw = true := by
  simp [Stm32Index.ISR_Update, Stm32Index.ISR_Callback, h]

/-- Witness for C7 at a concrete error-free state with a latched pulse. -/
theorem stm32_index_isr_update_latch_witness :
    (Stm32Index.ISR_Update (Stm32IndexState.mk AuxError.kNone true)
        (IndexStatus.mk false false false) false).2.raw =
      ((Stm32IndexState.mk AuxError.kNone true).observed || false) ∧
    (Stm32Index.ISR_Update (Stm32IndexState.mk AuxError.kNone true)
        (IndexStatus.mk false false false) false).2.value =
      (((Stm32IndexState.mk AuxError.kNone true).observed || false) &&
        !(IndexStatus.mk false false false).raw) ∧
    (Stm32Index.ISR_Update (Stm32IndexState.mk AuxError.kNone true)
        (IndexStatus.mk false false false) false).2.active = true ∧
    (Stm32Index.ISR_Update (Stm32IndexState.mk AuxError.kNone true)
        (IndexStatus.mk false false false) false).1.observed = false ∧
    (Stm32Index.ISR_Update
        (Stm32Index.ISR_Callback
          (Stm32Index.ISR_Update (Stm32IndexState.mk AuxError.kNone true)
            (IndexStatus.mk false false false) false).1 true)
        (Stm32Index.ISR_Update (Stm32IndexState.mk AuxError.kNone true)
          (IndexStatus.mk false false false) false).2 false).2.raw = true :=
  stm32_index_isr_update_latch (Stm32IndexState.mk AuxError.kNone true)
    (IndexStatus.mk false false false) false rfl

/-! ## On-board SPI magnetic encoder (part_002 `AS5047`) -/

/-- Embedding of `AS5047::Sample` as a function of the 16-bit word returned
by the blocking SPI transfer `spi_.write(0xffff)`. -/
def Moteus.AS5047.Sample (spi_value : Nat) : Nat :=
  ((spi_value % 65536) &&& 0x3fff) <<< 2

/-- Embedding of `AS5047::FinishSample` as a function of the 16-bit word
returned by `spi_.finish_write()`.  Note the source masks but does not
shift here. -/
def Moteus.AS5047.FinishSample (spi_value : Nat) : Nat :=
  (spi_value % 65536) &&& 0x3fff

/-- C9 evaluated at the SPI reading 0x1234: `Sample` returns the 14-bit
value left-shifted by 2, but `FinishSample` returns it unshifted, so the
two sampling paths disagree — the non-blocking path omits the documented
left shift. -/
theorem as5047_finish_sample_missing_shift :
    AS5047.Sample 0x1234 = ((0x1234 &&& 0x3fff) <<< 2) ∧
    AS5047.FinishSample 0x1234 = 0x1234 ∧
    AS5047.FinishSample 0x1234 ≠ ((0x1234 &&& 0x3fff) <<< 2) := by
  refine ⟨rfl, rfl, by decide⟩

/-! ## FDCAN frame padding (part_001 `FDCanMicroServer`) -/

/-- Embedding of `FDCanMicroServer::RoundUpDlc`. -/
def Moteus.FDCanMicroServer.RoundUpDlc (value : Nat) : Nat :=
  if value = 0 then 0
  else if value = 1 then 1
  else if value = 2 then 2
  else if value = 3 then 3
  else if value = 4 then 4
  else if value = 5 then 5
  else if value = 6 then 6
  else if value = 7 then 7
  else if value = 8 then 8
  else if value ≤ 12 then 12
  else if value ≤ 16 then 16
  else if value ≤ 20 then 20
  else if value ≤ 24 then 24
  else if value ≤ 32 then 32
  else if value ≤ 48 then 48
  else if value ≤ 64 then 64
  else 0

/-- The valid FDCAN data length codes of the spec. -/
def Moteus.validDlcs : List Nat := [0, 1, 2, 3, 4, 5, 6, 7, 8, 12, 16, 20, 24, 32, 48, 64]

/-- Embedding of the payload built by `FDCanMicroServer::AsyncWrite`: when
the rounded-up DLC exceeds the data size, the data is copied into `buf_` and
every byte from the data size up to the DLC is set to 0x50 before sending. -/
def Moteus.FDCanMicroServer.AsyncWritePayload (data : List Nat) : List Nat :=
  if FDCanMicroServer.RoundUpDlc data.length = data.length then data
  else data ++
    List.replicate (FDCanMicroServer.RoundUpDlc data.length - data.length) 0x50

/-- The rounding function picks the least valid DLC at least its argument,
for all arguments up to 64. -/
theorem roundUpDlc_min_valid :
    ∀ n, n < 65 →
      FDCanMicroServer.RoundUpDlc n ∈ validDlcs ∧
      n ≤ FDCanMicroServer.RoundUpDlc n ∧
      ∀ m ∈ validDlcs, n ≤ m → FDCanMicroServer.RoundUpDlc n ≤ m := by
  decide

/-- C5: for payload sizes up to 64, `RoundUpDlc` returns the smallest valid
DLC at least the payload size, and the frame payload `AsyncWrite` sends has
exactly that length with every byte beyond the data filled with 0x50. -/
theorem fdcan_round_up_dlc_pad (n : Nat) (hn : n ≤ 64) :
    (FDCanMicroServer.RoundUpDlc n ∈ validDlcs ∧
      n ≤ FDCanMicroServer.RoundUpDlc n ∧
      ∀ m ∈ validDlcs, n ≤ m → FDCanMicroServer.RoundUpDlc n ≤ m) ∧
    ∀ data : List Nat, data.length = n →
      (FDCanMicroServer.AsyncWritePayload data).length =
        FDCanMicroServer.RoundUpDlc n ∧
      ∀ i, n ≤ i → i < FDCanMicroServer.RoundUpDlc n →
        (FDCanMicroServer.AsyncWritePayload data).getD i 0 = 0x50 := by
  have hmin := roundUpDlc_min_valid n (by omega)
  refine ⟨hmin, ?_⟩
  intro data hd
  subst hd
  by_cases hEq : FDCanMicroServer.RoundUpDlc data.length = data.length
  · constructor
    · unfold FDCanMicroServer.AsyncWritePayload
      rw [if_pos hEq, hEq]
    · intro i h1 h2
      omega
  · have hle : data.length ≤ FDCanMicroServer.RoundUpDlc data.length := hmin.2.1
    constructor
    · unfold FDCanMicroServer.AsyncWritePayload
      rw [if_neg hEq, List.length_append, List.length_replicate]
      omega
    · intro i h1 h2
      unfold FDCanMicroServer.AsyncWritePayload
      rw [if_neg hEq, List.getD_eq_getElem?_getD,
        List.getElem?_append_right h1, List.getElem?_replicate,
        if_pos (by omega)]
      rfl

/-- Witness for C5 at payload size 5 and the payload `[1, 2, 3, 4, 5]`. -/
theorem fdcan_round_up_dlc_pad_witness :
    (FDCanMicroServer.RoundUpDlc 5 ∈ validDlcs ∧
      5 ≤ FDCanMicroServer.RoundUpDlc 5 ∧
      ∀ m ∈ validDlcs, 5 ≤ m → FDCanMicroServer.RoundUpDlc 5 ≤ m) ∧
    ∀ data : List Nat, data.length = 5 →
      (FDCanMicroServer.AsyncWritePayload data).length =
        FDCanMicroServer.RoundUpDlc 5 ∧
      ∀ i, 5 ≤ i → i < FDCanMicroServer.RoundUpDlc 5 →
        (FDCanMicroServer.AsyncWritePayload data).getD i 0 = 0x50 :=
  fdcan_round_up_dlc_pad 5 (by norm_num)

/-! ## The two PID controllers (fw/simple_pid.h and part_011) -/

/-- `PID::Config`, identical in both PID headers. -/
structure Moteus.PIDConfig where
  kp : ℝ := 0
  ki : ℝ := 0
  kd : ℝ := 0
  iratelimit : ℝ := -1
  ilimit : ℝ := 0
  max_desired_rate : ℝ := 0
  sign : ℤ := 1

/-- `PID::State`, identical in both PID headers; `desired` is a float that
starts as NaN, modelled as `Option ℝ` with `none` for the initial
non-finite value. -/
structure Moteus.PIDState where
  integral : ℝ := 0
  desired : Option ℝ := none
  error : ℝ := 0
  error_rate : ℝ := 0
  p : ℝ := 0
  d : ℝ := 0
  pd : ℝ := 0
  command : ℝ := 0

/-- Embedding of `PID::Apply` from fw/simple_pid.h.  `limitFn` stands for
the external helper `mjlib::base::Limit` (the mjlib library is outside this
repository); every statement below holds for an arbitrary such clamp.  The
returned pair is the updated `*state_` and the returned command. -/
noncomputable def Moteus.SimplePid.Apply (limitFn : ℝ → ℝ → ℝ → ℝ)
    (cfg : PIDConfig) (st : PIDState)
    (measured input_desired measured_rate input_desired_rate : ℝ)
    (rate_hz : ℤ) (kp_scale kd_scale : ℝ) : PIDState × ℝ :=
  let dd : ℝ × ℝ :=
    if cfg.max_desired_rate ≠ 0 ∧ st.desired.isSome = true then
      let max_step := cfg.max_desired_rate / (rate_hz : ℝ)
      let proposed_step := input_desired - st.desired.getD 0
      let actual_step := limitFn proposed_step (-max_step) max_step
      (st.desired.getD 0 + actual_step,
        limitFn input_desired_rate (-cfg.max_desired_rate) cfg.max_desired_rate)
    else (input_desired, input_desired_rate)
  let error := measured - dd.1
  let error_rate := measured_rate - dd.2
  let max_i_update := cfg.iratelimit / (rate_hz : ℝ)
  let to_update_raw := error * cfg.ki / (rate_hz : ℝ)
  let to_update_i :=
    if max_i_update > 0 then
      if to_update_raw > max_i_update then max_i_update
      else if to_update_raw < -max_i_update then -max_i_update
      else to_update_raw
    else to_update_raw
  let integral0 := st.integral + to_update_i
  let integral :=
    if integral0 > cfg.ilimit then cfg.ilimit
    else if integral0 < -cfg.ilimit then -cfg.ilimit
    else integral0
  let p := kp_scale * cfg.kp * error
  let d := kd_scale * cfg.kd * error_rate
  let pdv := p + d
  let command := (cfg.sign : ℝ) * (pdv + integral)
  (PIDState.mk integral (some dd.1) error error_rate p d pdv command, command)

/-- Embedding of `PID::Apply` from part_011: identical to the
fw/simple_pid.h version except that `ApplyOptions` carries an extra
`ki_scale` which multiplies the integral term in the returned command. -/
noncomputable def Moteus.Part011Pid.Apply (limitFn : ℝ → ℝ → ℝ → ℝ)
    (cfg : PIDConfig) (st : PIDState)
    (measured input_desired measured_rate input_desired_rate : ℝ)
    (rate_hz : ℤ) (kp_scale kd_scale ki_scale : ℝ) : PIDState × ℝ :=
  let dd : ℝ × ℝ :=
    if cfg.max_desired_rate ≠ 0 ∧ st.desired.isSome = true then
      let max_step := cfg.max_desired_rate / (rate_hz : ℝ)
      let proposed_step := input_desired - st.desired.getD 0
      let actual_step := limitFn proposed_step (-max_step) max_step
      (st.desired.getD 0 + actual_step,
        limitFn input_desired_rate (-cfg.max_desired_rate) cfg.max_desired_rate)
    else (input_desired, input_desired_rate)
  let error := measured - dd.1
  let error_rate := measured_rate - dd.2
  let max_i_update := cfg.iratelimit / (rate_hz : ℝ)
  let to_update_raw := error * cfg.ki / (rate_hz : ℝ)
  let to_update_i :=
    if max_i_update > 0 then
      if to_update_raw > max_i_update then max_i_update
      else if to_update_raw < -max_i_update then -max_i_update
      else to_update_raw
    else to_update_raw
  let integral0 := st.integral + to_update_i
  let integral :=
    if integral0 > cfg.ilimit then cfg.ilimit
    else if integral0 < -cfg.ilimit then -cfg.ilimit
    else integral0
  let p := kp_scale * cfg.kp * error
  let d := kd_scale * cfg.kd * error_rate
  let pdv := p + d
  let command := (cfg.sign : ℝ) * (pdv + ki_scale * integral)
  (PIDState.mk integral (some dd.1) error error_rate p d pdv command, command)

/-- C10: with the extra `ki_scale` option left at its default of 1, the
part_011 `PID::Apply` computes exactly the same command and the same
resulting state as the fw/simple_pid.h `PID::Apply`, for every
configuration, starting state, input tuple and clamp helper. -/
theorem pid_apply_equiv_at_default_ki_scale (limitFn : ℝ → ℝ → ℝ → ℝ)
    (cfg : PIDConfig) (st : PIDState)
    (measured input_desired measured_rate input_desired_rate : ℝ)
    (rate_hz : ℤ) (kp_scale kd_scale : ℝ) :
    Part011Pid.Apply limitFn cfg st measured input_desired measured_rate
        input_desired_rate rate_hz kp_scale kd_scale 1 =
      SimplePid.Apply limitFn cfg st measured input_desired measured_rate
        input_desired_rate rate_hz kp_scale kd_scale := by
  simp only [Part011Pid.Apply, SimplePid.Apply, one_mul]
